import Mathlib

/-!
Verification development for the pokechat-api image-identification service.

The definitions below are a shallow embedding of the Python sources:
  * `src/services/image_verification.py` — scorer (hamming distance, similarity,
    classification),
  * `src/services/pokeapi.py` — `SimpleTTLCache`, `PokeAPIClient.get_bytes`,
    `PokeAPIClient.sprite_hash_from_url`, `sprite_default_url_for_id`,
  * `src/routes/identify.py` — the `/identify` route: input-mode resolution,
    the coarse scoring pass, top-50 ranking, and the refinement pass.

Python floats are modelled as rationals, byte strings as lists of naturals,
image hashes as lists of booleans, and the remote network as explicit oracle
functions passed in.  Remote fetch/hash operations that the route performs
through the PokeAPI client are abstracted as oracles in `Env`; the cache layer
itself is modelled concretely and separately.
-/

namespace PokeChat

/-- An image perceptual hash: a flattened bit vector (imagehash stores a
boolean array; `hash_size * hash_size` bits for the grid-based methods). -/
abbrev Hash := List Bool

/-- A raw byte payload. -/
abbrev Bytes := List Nat

/-! ## Scorer — src/services/image_verification.py -/

/-- Embedding of `hamming_distance(hash_a, hash_b) = int(hash_a - hash_b)`:
imagehash subtraction counts the positions where the two equal-length bit
arrays differ. -/
def hamming_distance (a b : Hash) : Int :=
  ((a.zip b).countP (fun p => decide (¬ p.1 = p.2)) : Nat)

/-- Embedding of `similarity_from_distance(distance, bit_length)`:
returns `0.0` when `bit_length <= 0`, otherwise clamps the distance to
`[0, bit_length]` and returns `1.0 - distance / bit_length`. -/
def similarity_from_distance (distance bit_length : Int) : ℚ :=
  if bit_length ≤ 0 then 0
  else 1 - ((max 0 (min distance bit_length) : Int) : ℚ) / (bit_length : ℚ)

/-- Embedding of `classify_similarity(similarity, threshold)`. -/
def classify_similarity (similarity threshold : ℚ) : String :=
  if threshold ≤ similarity then "Likely Accurate" else "Potential Inaccurate"

/-! ## TTL cache — src/services/pokeapi.py, class SimpleTTLCache

The Python `_store` is a dict mapping a key to `(expires_at, data)`.  It is
modelled as an association list of `(key, expires_at, data)` triples; `set`
replaces any existing binding, `pop` removes it, and reads take the (unique)
binding found first. -/

structure SimpleTTLCache (α : Type) where
  ttl : ℚ
  store : List (String × ℚ × α)

/-- Removal of a key from the store (`self._store.pop(key, None)`). -/
def storeErase {α : Type} (s : List (String × ℚ × α)) (key : String) :
    List (String × ℚ × α) :=
  s.filter (fun e => decide (¬ e.1 = key))

/-- Embedding of `SimpleTTLCache.get`: a missing key reads as `None`; an
entry whose `expires_at < now` is popped from the store and reads as `None`;
otherwise the stored data is returned.  The (possibly evicted) store is
returned alongside the read result. -/
def cacheGet {α : Type} (c : SimpleTTLCache α) (now : ℚ) (key : String) :
    Option α × SimpleTTLCache α :=
  match c.store.find? (fun e => decide (e.1 = key)) with
  | none => (none, c)
  | some e =>
      if e.2.1 < now then (none, ⟨c.ttl, storeErase c.store key⟩)
      else (some e.2.2, c)

/-- Embedding of `SimpleTTLCache.set`: stores `(now + ttl, value)` under the
key, replacing any previous binding. -/
def cacheSet {α : Type} (c : SimpleTTLCache α) (now : ℚ) (key : String) (v : α) :
    SimpleTTLCache α :=
  ⟨c.ttl, (key, now + c.ttl, v) :: storeErase c.store key⟩

/-! ## Byte fetching — src/services/pokeapi.py, PokeAPIClient.get_bytes -/

/-- The remote response for a URL: an HTTP status code and the body bytes. -/
structure FetchResp where
  status : Nat
  content : Bytes

/-- Embedding of `PokeAPIClient.get_bytes(self, url)`.  Note the source
function accepts no byte-limit parameter and performs no size check: a falsy
URL yields `None`; a live cached payload is returned as is; otherwise the URL
is fetched, a non-200 status yields `None` without touching the cache, and a
200 payload is cached in full and returned in full. -/
def get_bytes (resp : String → FetchResp) (st : SimpleTTLCache Bytes)
    (now : ℚ) (url : String) : Option Bytes × SimpleTTLCache Bytes :=
  if url = "" then (none, st)
  else
    match cacheGet st now url with
    | (some cached, st1) => (some cached, st1)
    | (none, st1) =>
        if ¬ (resp url).status = 200 then (none, st1)
        else (some (resp url).content, cacheSet st1 now url (resp url).content)

/-! ## Sprite fingerprints — PokeAPIClient.sprite_hash_from_url

The client holds the TTL byte cache and, separately, `_sprite_hash_cache`,
which in the source is a plain `Dict[str, Any]` carrying no timestamps. -/

structure ClientState where
  bytesCache : SimpleTTLCache Bytes
  spriteHashCache : List (String × Hash)

/-- The composite fingerprint-cache key built in the source: the literal
"sprite_hash_url" followed by the method, the hash size and the URL,
joined with double colons. -/
def spriteHashKey (method : String) (hashSize : Nat) (url : String) : String :=
  "sprite_hash_url::" ++ method ++ "::" ++ toString hashSize ++ "::" ++ url

/-- Embedding of `PokeAPIClient.sprite_hash_from_url`.  `computeHash` models
`compute_image_hash` (returning `none` where the Python raises).  A falsy URL
yields `None`; a hit in the plain fingerprint dict is returned unconditionally;
otherwise bytes are fetched (through the TTL byte cache), a falsy byte payload
yields `None`, and a computed hash is stored in the fingerprint dict. -/
def sprite_hash_from_url (resp : String → FetchResp)
    (computeHash : Bytes → String → Nat → Option Hash)
    (st : ClientState) (now : ℚ) (url method : String) (hashSize : Nat) :
    Option Hash × ClientState :=
  if url = "" then (none, st)
  else
    match st.spriteHashCache.find?
        (fun e => decide (e.1 = spriteHashKey method hashSize url)) with
    | some e => (some e.2, st)
    | none =>
        match get_bytes resp st.bytesCache now url with
        | (none, bc) => (none, ⟨bc, st.spriteHashCache⟩)
        | (some bytes, bc) =>
            if bytes.isEmpty then (none, ⟨bc, st.spriteHashCache⟩)
            else
              match computeHash bytes method hashSize with
              | none => (none, ⟨bc, st.spriteHashCache⟩)
              | some h =>
                  (some h,
                    ⟨bc, (spriteHashKey method hashSize url, h) :: st.spriteHashCache⟩)

/-- Embedding of `PokeAPIClient.sprite_default_url_for_id`. -/
def sprite_default_url_for_id (pid : Nat) : String :=
  "https://raw.githubusercontent.com/PokeAPI/sprites/master/sprites/pokemon/"
    ++ toString pid ++ ".png"

/-! ## Stable descending sort

The route sorts `(name, similarity)` pairs with
`sorted(..., key=lambda t: t[1], reverse=True)`.  Python's sort is stable, and
with `reverse=True` elements with equal keys keep their original relative
order.  The unique stable descending sort is realised here by insertion:
an element is placed before the first already-sorted element whose similarity
is not strictly greater. -/

/-- Stable descending insertion of a scored pair. -/
def insertDesc (x : String × ℚ) : List (String × ℚ) → List (String × ℚ)
  | [] => [x]
  | y :: ys => if x.2 < y.2 then y :: insertDesc x ys else x :: y :: ys

/-- Stable sort by similarity descending (the embedding of
`sorted(pairs, key=lambda t: t[1], reverse=True)`). -/
def sortDesc (l : List (String × ℚ)) : List (String × ℚ) :=
  l.foldr insertDesc []

/-- Pairwise descending order on similarities. -/
def SortedDesc (l : List (String × ℚ)) : Prop :=
  List.Pairwise (fun a b : String × ℚ => b.2 ≤ a.2) l

theorem insertDesc_perm (x : String × ℚ) (l : List (String × ℚ)) :
    List.Perm (insertDesc x l) (x :: l) := by
  induction l with
  | nil => simp [insertDesc]
  | cons y ys ih =>
      by_cases h : x.2 < y.2
      · simp only [insertDesc, if_pos h]
        exact ((ih.cons y).trans (List.Perm.swap x y ys))
      · simp [insertDesc, if_neg h]

theorem sortDesc_perm (l : List (String × ℚ)) : List.Perm (sortDesc l) l := by
  induction l with
  | nil => simp [sortDesc]
  | cons a l ih =>
      exact (insertDesc_perm a (sortDesc l)).trans (ih.cons a)

theorem insertDesc_sorted (x : String × ℚ) {l : List (String × ℚ)}
    (h : SortedDesc l) : SortedDesc (insertDesc x l) := by
  induction l with
  | nil => simp [insertDesc, SortedDesc]
  | cons y ys ih =>
      rcases (List.pairwise_cons.mp h) with ⟨hy, hys⟩
      by_cases hxy : x.2 < y.2
      · simp only [insertDesc, if_pos hxy]
        refine List.pairwise_cons.mpr ⟨?_, ih hys⟩
        intro z hz
        rcases List.mem_cons.mp ((insertDesc_perm x ys).mem_iff.mp hz) with hzx | hzys
        · exact hzx ▸ le_of_lt hxy
        · exact hy z hzys
      · simp only [insertDesc, if_neg hxy]
        refine List.pairwise_cons.mpr ⟨?_, List.pairwise_cons.mpr ⟨hy, hys⟩⟩
        intro z hz
        rcases List.mem_cons.mp hz with hzy | hzys
        · exact hzy ▸ le_of_not_lt hxy
        · exact le_trans (hy z hzys) (le_of_not_lt hxy)

theorem sortDesc_sorted (l : List (String × ℚ)) : SortedDesc (sortDesc l) := by
  induction l with
  | nil => simp [sortDesc, SortedDesc]
  | cons a l ih => exact insertDesc_sorted a ih

theorem insertDesc_filter_eq (x : String × ℚ) (l : List (String × ℚ)) (q : ℚ) :
    (insertDesc x l).filter (fun p => decide (p.2 = q)) =
      (x :: l).filter (fun p => decide (p.2 = q)) := by
  induction l with
  | nil => rfl
  | cons y ys ih =>
      by_cases hxy : x.2 < y.2
      · simp only [insertDesc, if_pos hxy]
        by_cases hx : x.2 = q
        · have hy : ¬ y.2 = q := by
            intro hyq
            exact absurd (hyq ▸ hxy) (by simp [hx, hyq])
          simp [List.filter, hx, hy, ih]
        · simp [List.filter, hx, ih]
      · simp [insertDesc, if_neg hxy]

theorem sortDesc_filter_eq (l : List (String × ℚ)) (q : ℚ) :
    (sortDesc l).filter (fun p => decide (p.2 = q)) =
      l.filter (fun p => decide (p.2 = q)) := by
  induction l with
  | nil => rfl
  | cons a l ih =>
      have h1 : sortDesc (a :: l) = insertDesc a (sortDesc l) := rfl
      rw [h1, insertDesc_filter_eq]
      by_cases ha : a.2 = q <;> simp [List.filter, ha, ih]

/-! ## The /identify route — src/routes/identify.py

Remote interactions performed through the PokeAPI client are abstracted as
oracle fields of `Env` (they are deterministic per URL within one request,
matching the cached client):
  * `hashAt url method size` — the outcome of `api.sprite_hash_from_url`,
  * `urlsAll name` — the outcome of `api.sprite_urls_for_pokemon_all(name,
    include_pokemondb=True, max_urls=60)`,
  * `entries` — the outcome of `api.list_pokemon_entries(limit=2000)`,
  * `computeHash` — `compute_image_hash` (`none` where the Python raises),
  * `qhVariants m` — `compute_image_hash_variants(...).get(m, [])`. -/

/-- A catalog entry as produced by `list_pokemon_entries`: a name and a
numeric id (Python truthiness: empty name and id 0 are falsy). -/
structure Entry where
  name : String
  id : Nat
  deriving DecidableEq

/-- The request-handling environment: app-state configuration plus the
oracles for the remote catalog, fetches and hashing. -/
structure Env where
  method : String
  hashSize : Nat
  threshold : ℚ
  maxUpload : Nat
  maxRemote : Nat
  requireHttps : Bool
  entries : List Entry
  hashAt : String → String → Nat → Option Hash
  urlsAll : String → List String
  qhVariants : String → List Hash
  computeHash : Bytes → String → Nat → Option Hash

/-- An uploaded file: declared content type and payload. -/
structure UploadedFile where
  contentType : String
  content : Bytes

/-- The request inputs bound by the framework: the optional file part, the
optional body/form-bound `url` field, whether the content type is JSON, the
optional `url` key of a JSON dict body, and the optional `url` query
parameter. -/
structure IdentifyInput where
  file : Option UploadedFile
  bodyUrl : Option String
  isJson : Bool
  jsonUrl : Option String
  queryUrl : Option String

/-- The route's error taxonomy: each constructor is one `HTTPException`
raised in `identify`. -/
inductive HErr where
  | provideEither   -- 400: neither a file nor a url was supplied
  | bothProvided    -- 400: both a file and a url were supplied
  | badScheme       -- 400: url does not start with an accepted scheme
  | fetchFailed     -- 400: fetching the remote image returned nothing
  | notImage        -- 400: uploaded file content type is not image/*
  | tooLarge        -- 413: uploaded file exceeds the limit
  | emptyFile       -- 400: uploaded file is empty
  | processFailed   -- 400: generic image-processing failure
  | notFound        -- 404: no matching candidate
  deriving DecidableEq, Repr

/-- HTTP status of each route error. -/
def HErr.status : HErr → Nat
  | .tooLarge => 413
  | .notFound => 404
  | _ => 400

/-- The identification outcome returned on success: best candidate name,
best similarity, and the classification label.  (The markdown rendering of
the response is presentation and is not modelled.) -/
abbrev MatchOut := String × ℚ × String

/-- Python string truthiness on an optional value: `None` and `""` are
falsy. -/
def strFalsy : Option String → Bool
  | none => true
  | some s => decide (s = "")

/-- Embedding of `str.startswith`. -/
def strStarts (s pre : String) : Bool :=
  pre.toList.isPrefixOf s.toList

/-- Python whitespace characters stripped by `str.strip()`. -/
def isPySpace (c : Char) : Bool :=
  c = ' ' || c = '\t' || c = '\n' || c = '\r' || c = '\x0c' || c = '\x0b'

/-- Characters stripped by the route's second `strip(" <>\x22\x27\t\r\n")`. -/
def isPasteChar (c : Char) : Bool :=
  c = ' ' || c = '<' || c = '>' || c = '\x22' || c = '\x27' || c = '\t' ||
    c = '\r' || c = '\n'

/-- Strip characters satisfying a predicate from both ends of a string. -/
def stripWith (p : Char → Bool) (s : String) : String :=
  String.mk (((s.toList.dropWhile p).reverse.dropWhile p).reverse)

/-- Embedding of the route's URL sanitisation: whitespace strip, removal of
leading at-signs, then strip of common paste-surrounding characters. -/
def sanitizeUrl (s : String) : String :=
  stripWith isPasteChar (String.mk ((stripWith isPySpace s).toList.dropWhile (fun c => c = '@')))

/-- Resolution of the `url` variable across the body field, the JSON body
and the query string, as in identify lines 85-96: recovery from the JSON
body and the query parameters happens only when no file and no truthy body
url were bound. -/
def resolveUrl (inp : IdentifyInput) : Option String :=
  if (inp.file.isNone && strFalsy inp.bodyUrl) = true then
    if strFalsy
        (if (inp.isJson && !strFalsy inp.jsonUrl) = true then inp.jsonUrl
         else inp.bodyUrl) = true then
      inp.queryUrl
    else
      (if (inp.isJson && !strFalsy inp.jsonUrl) = true then inp.jsonUrl
       else inp.bodyUrl)
  else inp.bodyUrl

/-- Scoring of one catalog entry in the coarse pass (`eval_entry`): a falsy
name or id yields `("", 0.0)`; a missing sprite fingerprint yields
`(name, 0.0)`; otherwise the similarity of the query hash against the
default-sprite hash. -/
def evalEntry (env : Env) (qh : Hash) (e : Entry) : String × ℚ :=
  if e.name = "" ∨ e.id = 0 then ("", 0)
  else
    match env.hashAt (sprite_default_url_for_id e.id) env.method env.hashSize with
    | none => (e.name, 0)
    | some h =>
        (e.name,
          similarity_from_distance (hamming_distance qh h)
            ((env.hashSize : Int) * (env.hashSize : Int)))

/-- The raw coarse results, in catalog discovery order (asyncio.gather
returns results in argument order). -/
def coarseResults (env : Env) (qh : Hash) : List (String × ℚ) :=
  env.entries.map (evalEntry env qh)

/-- The coarse results kept for ranking: `[(n, s) for n, s in results if n]`. -/
def coarseFiltered (env : Env) (qh : Hash) : List (String × ℚ) :=
  (coarseResults env qh).filter (fun p => decide (¬ p.1 = ""))

/-- The full coarse ranking, similarity descending, stable. -/
def coarseRanked (env : Env) (qh : Hash) : List (String × ℚ) :=
  sortDesc (coarseFiltered env qh)

/-- The retained top-50 coarse candidates (`topk`). -/
def coarseTopk (env : Env) (qh : Hash) : List (String × ℚ) :=
  (coarseRanked env qh).take 50

/-- `best_name` after the coarse pass: the head of `topk` when non-empty. -/
def coarseBestName (env : Env) (qh : Hash) : Option String :=
  match coarseTopk env qh with
  | [] => none
  | p :: _ => some p.1

/-- `best_similarity` after the coarse pass (initialised to `0.0`). -/
def coarseBestSim (env : Env) (qh : Hash) : ℚ :=
  match coarseTopk env qh with
  | [] => 0
  | p :: _ => p.2

/-- The refinement guard `(best_similarity < threshold) and topk`. -/
def refineEntered (env : Env) (qh : Hash) : Bool :=
  decide (coarseBestSim env qh < env.threshold) &&
    decide (¬ coarseTopk env qh = [])

/-- The refinement hash methods, fixed in the source. -/
def methodsList : List String := ["phash", "dhash", "whash"]

/-- The `name_to_id` dict built from the entries; later duplicates overwrite
earlier ones, so lookup scans the (filtered) entries from the back. -/
def nameToId (entries : List Entry) (n : String) : Option Nat :=
  ((entries.filter (fun e => decide (¬ e.name = "") && decide (¬ e.id = 0))).reverse.find?
      (fun e => decide (e.name = n))).map (fun e => e.id)

/-- All similarities examined by `score_candidate` for one candidate: every
source URL, every method, every query-hash crop variant; sources without a
fingerprint contribute nothing. -/
def candidateSims (env : Env) (n : String) : List ℚ :=
  (env.urlsAll n).flatMap (fun u =>
    methodsList.flatMap (fun m =>
      match env.hashAt u m env.hashSize with
      | none => []
      | some h =>
          (env.qhVariants m).map (fun q =>
            similarity_from_distance (hamming_distance q h)
              ((env.hashSize : Int) * (env.hashSize : Int)))))

/-- Embedding of `score_candidate`: an unknown name scores `0.0`; otherwise
the maximum similarity over all sources, methods and crop variants, starting
from `local_best = 0.0`. -/
def score_candidate (env : Env) (n : String) : String × ℚ :=
  match nameToId env.entries n with
  | none => (n, 0)
  | some _ => (n, (candidateSims env n).foldl max 0)

/-- The refined scores of the retained top-50 candidates. -/
def refinedList (env : Env) (qh : Hash) : List (String × ℚ) :=
  (coarseTopk env qh).map (fun p => score_candidate env p.1)

/-- Fetch-layer calls made by the refinement pass: one detail lookup per
resolvable candidate plus one fingerprint fetch per source URL and method. -/
def refineFetchCount (env : Env) (qh : Hash) : Nat :=
  (coarseTopk env qh).foldl
    (fun a p =>
      a + (match nameToId env.entries p.1 with
           | none => 0
           | some _ => 1 + 3 * (env.urlsAll p.1).length)) 0

/-- The final `(best_name, best_similarity)` pair: when refinement runs, the
head of the re-sorted refined list replaces the coarse best only if it is
strictly greater. -/
def finalBest (env : Env) (qh : Hash) : Option String × ℚ :=
  if refineEntered env qh then
    match sortDesc (refinedList env qh) with
    | [] => (coarseBestName env qh, coarseBestSim env qh)
    | r :: _ =>
        if coarseBestSim env qh < r.2 then (some r.1, r.2)
        else (coarseBestName env qh, coarseBestSim env qh)
  else (coarseBestName env qh, coarseBestSim env qh)

/-- The search portion of the route after the query hash is computed: `404`
when no best name was ever set, otherwise the match outcome.  The second
component counts Fetch/Cache-layer calls made up to the match decision (one
catalog listing, one fingerprint fetch per entry, plus the refinement
fetches); the enrichment lookups made after a successful match are not
counted. -/
def identifyAfterHash (env : Env) (qh : Hash) : Except HErr MatchOut × Nat :=
  match finalBest env qh with
  | (none, _) =>
      (Except.error HErr.notFound,
        1 + env.entries.length +
          (if refineEntered env qh then refineFetchCount env qh else 0))
  | (some nm, s) =>
      (Except.ok (nm, s, classify_similarity s env.threshold),
        1 + env.entries.length +
          (if refineEntered env qh then refineFetchCount env qh else 0))

/-- Embedding of the `/identify` route body (given a ready client).  Returns
the outcome and the number of Fetch/Cache-layer calls made before it was
produced.  In the remote-URL branch the source calls
`api.get_bytes(url, max_bytes=...)`, but `get_bytes` accepts no `max_bytes`
parameter: the call raises `TypeError` before any network operation and the
generic handler converts it to a 400 processing error. -/
def identify (env : Env) (inp : IdentifyInput) : Except HErr MatchOut × Nat :=
  if (inp.file.isNone && strFalsy (resolveUrl inp)) = true then
    (Except.error HErr.provideEither, 0)
  else if (inp.file.isSome && !strFalsy (resolveUrl inp)) = true then
    (Except.error HErr.bothProvided, 0)
  else if (!strFalsy (resolveUrl inp)) = true then
    match resolveUrl inp with
    | none => (Except.error HErr.provideEither, 0)
    | some u =>
        if (strStarts (sanitizeUrl u) "https://" ||
            (!env.requireHttps && strStarts (sanitizeUrl u) "http://")) = true then
          (Except.error HErr.processFailed, 0)
        else (Except.error HErr.badScheme, 0)
  else
    match inp.file with
    | none => (Except.error HErr.provideEither, 0)
    | some f =>
        if (!strStarts f.contentType "image/") = true then
          (Except.error HErr.notImage, 0)
        else if env.maxUpload < (f.content.take (env.maxUpload + 1)).length then
          (Except.error HErr.tooLarge, 0)
        else if (f.content.take (env.maxUpload + 1)).isEmpty = true then
          (Except.error HErr.emptyFile, 0)
        else
          match env.computeHash (f.content.take (env.maxUpload + 1))
              env.method env.hashSize with
          | none => (Except.error HErr.processFailed, 0)
          | some qh => identifyAfterHash env qh

/-! ## Concrete fixtures used by witnesses and counterexamples -/

/-- A concrete 64-bit query hash (hash_size 8). -/
def qhW : Hash := List.replicate 64 false

/-- A one-entry catalog. -/
def entryB : Entry := ⟨"bulbasaur", 1⟩

/-- An environment in which every candidate source fetch/hash fails. -/
def envFail : Env :=
  ⟨"phash", 8, mkRat 9 10, 1048576, 1048576, true, [entryB],
    fun _ _ _ => none, fun _ => [], fun _ => [], fun _ _ _ => some qhW⟩

/-- An environment with an empty catalog. -/
def envEmpty : Env :=
  ⟨"phash", 8, mkRat 9 10, 1048576, 1048576, true, [],
    fun _ _ _ => none, fun _ => [], fun _ => [], fun _ _ _ => some qhW⟩

/-- A small valid image upload. -/
def fW : UploadedFile := ⟨"image/png", [1]⟩

/-- A file-only request. -/
def inpFile : IdentifyInput := ⟨some fW, none, false, none, none⟩

/-- A request carrying both a file upload and a url query parameter. -/
def inpBothQuery : IdentifyInput :=
  ⟨some fW, none, false, none, some "https://img.example/a.png"⟩

/-- A request carrying both a file upload and a body-bound url field. -/
def inpBothBody : IdentifyInput :=
  ⟨some fW, some "https://img.example/a.png", false, none, none⟩

/-- A url-only request. -/
def inpUrl : IdentifyInput :=
  ⟨none, some "https://img.example/a.png", false, none, none⟩

/-- A request with neither input mode. -/
def inpNone : IdentifyInput := ⟨none, none, false, none, none⟩

/-- A remote server always answering 200 with a small payload. -/
def respOK7 : String → FetchResp := fun _ => ⟨200, [1, 2, 3]⟩

/-- A remote server always answering 404. -/
def respFail7 : String → FetchResp := fun _ => ⟨404, []⟩

/-- A concrete sprite fingerprint. -/
def hW : Hash := [true, false]

/-- A hash engine returning `hW` for any payload. -/
def ch7 : Bytes → String → Nat → Option Hash := fun _ _ _ => some hW

/-- A fresh client state with a 600-second byte-cache TTL. -/
def st7 : ClientState := ⟨⟨600, []⟩, []⟩

/-- A concrete TTL cache holding one entry that expires at time 10. -/
def c9 : SimpleTTLCache Nat := ⟨600, [("k", 10, 42)]⟩

/-! ## Claim theorems -/

/-- Claim C6: for every distance and bit length, `similarity_from_distance`
is bounded to `[0,1]`; for a positive bit length it equals one minus the
distance clamped to `[0, bitLength]` divided by the bit length; a
non-positive bit length yields `0.0` (no division); and the result is
monotonically non-increasing in the distance over `[0, bitLength]`. -/
theorem similarity_from_distance_spec :
    (∀ d bl : Int,
      0 ≤ similarity_from_distance d bl ∧ similarity_from_distance d bl ≤ 1) ∧
    (∀ d bl : Int, 0 < bl →
      similarity_from_distance d bl
        = 1 - ((max 0 (min d bl) : Int) : ℚ) / ((bl : Int) : ℚ)) ∧
    (∀ d bl : Int, bl ≤ 0 → similarity_from_distance d bl = 0) ∧
    (∀ bl d₁ d₂ : Int, 0 ≤ d₁ → d₁ ≤ d₂ → d₂ ≤ bl →
      similarity_from_distance d₂ bl ≤ similarity_from_distance d₁ bl) := by
  refine ⟨?_, ?_, ?_, ?_⟩
  · intro d bl
    unfold similarity_from_distance
    by_cases h : bl ≤ 0
    · simp [h]
    · have hbl : (0:Int) < bl := not_le.mp h
      have hblq : (0:ℚ) < ((bl : Int) : ℚ) := by exact_mod_cast hbl
      have h0 : (0:Int) ≤ max 0 (min d bl) := le_max_left 0 _
      have h1 : max 0 (min d bl) ≤ bl := max_le (le_of_lt hbl) (min_le_right d bl)
      have h0q : (0:ℚ) ≤ ((max 0 (min d bl) : Int) : ℚ) := by exact_mod_cast h0
      have h1q : ((max 0 (min d bl) : Int) : ℚ) ≤ ((bl : Int) : ℚ) := by
        exact_mod_cast h1
      rw [if_neg h]
      constructor
      · have := (div_le_one hblq).mpr h1q
        linarith
      · have := div_nonneg h0q (le_of_lt hblq)
        linarith
  · intro d bl hbl
    unfold similarity_from_distance
    rw [if_neg (not_le.mpr hbl)]
  · intro d bl hbl
    unfold similarity_from_distance
    rw [if_pos hbl]
  · intro bl d₁ d₂ _ h12 _
    unfold similarity_from_distance
    by_cases h : bl ≤ 0
    · simp [h]
    · have hbl : (0:Int) < bl := not_le.mp h
      have hblq : (0:ℚ) < ((bl : Int) : ℚ) := by exact_mod_cast hbl
      rw [if_neg h, if_neg h]
      have hc : max 0 (min d₁ bl) ≤ max 0 (min d₂ bl) :=
        max_le_max le_rfl (min_le_min h12 le_rfl)
      have hcq : ((max 0 (min d₁ bl) : Int) : ℚ)
          ≤ ((max 0 (min d₂ bl) : Int) : ℚ) := by exact_mod_cast hc
      have hdiv : ((max 0 (min d₁ bl) : Int) : ℚ) / ((bl : Int) : ℚ)
          ≤ ((max 0 (min d₂ bl) : Int) : ℚ) / ((bl : Int) : ℚ) := by
        rw [div_eq_mul_inv, div_eq_mul_inv]
        exact mul_le_mul_of_nonneg_right hcq (inv_nonneg.mpr (le_of_lt hblq))
      linarith

/-- Witness for C6 at concrete inputs. -/
theorem similarity_from_distance_spec_w :
    similarity_from_distance 70 64
      = 1 - ((max 0 (min 70 64) : Int) : ℚ) / (((64 : Int)) : ℚ) ∧
    similarity_from_distance 5 (-3) = 0 ∧
    similarity_from_distance 7 64 ≤ similarity_from_distance 3 64 :=
  ⟨similarity_from_distance_spec.2.1 70 64 (by decide),
   similarity_from_distance_spec.2.2.1 5 (-3) (by decide),
   similarity_from_distance_spec.2.2.2 64 3 7 (by decide) (by decide) (by decide)⟩

/-- Claim C5: the coarse phase retains at most 50 candidates, ordered by
similarity descending; the ranking is a permutation of the filtered coarse
results that preserves, for every similarity value, the original
catalog-discovery order among candidates of that similarity (stable sort);
and the retained list is the 50-element prefix of that ranking. -/
theorem coarse_topk_spec :
    ∀ (env : Env) (qh : Hash),
      (coarseTopk env qh).length ≤ 50 ∧
      SortedDesc (coarseTopk env qh) ∧
      List.Perm (coarseRanked env qh) (coarseFiltered env qh) ∧
      (∀ q : ℚ,
        (coarseRanked env qh).filter (fun p => decide (p.2 = q))
          = (coarseFiltered env qh).filter (fun p => decide (p.2 = q))) ∧
      coarseTopk env qh = (coarseRanked env qh).take 50 := by
  intro env qh
  refine ⟨?_, ?_, sortDesc_perm _, fun q => sortDesc_filter_eq _ q, rfl⟩
  · unfold coarseTopk
    rw [List.length_take]
    exact min_le_left _ _
  · unfold coarseTopk
    exact List.Pairwise.sublist (List.take_sublist 50 _) (sortDesc_sorted _)

/-- Helper: a read of a key absent from the store misses and leaves the
cache unchanged. -/
theorem cacheGet_of_find_none {α : Type} {c : SimpleTTLCache α} {now : ℚ}
    {key : String}
    (h : c.store.find? (fun x => decide (x.1 = key)) = none) :
    cacheGet c now key = (none, c) := by
  unfold cacheGet
  rw [h]

/-- Helper: a read of an expired entry misses and evicts it. -/
theorem cacheGet_of_find_expired {α : Type} {c : SimpleTTLCache α} {now : ℚ}
    {key : String} {e : String × ℚ × α}
    (h : c.store.find? (fun x => decide (x.1 = key)) = some e)
    (hexp : e.2.1 < now) :
    cacheGet c now key = (none, ⟨c.ttl, storeErase c.store key⟩) := by
  unfold cacheGet
  rw [h]
  dsimp only
  rw [if_pos hexp]

/-- Helper: a read of a live entry returns its data and leaves the cache
unchanged. -/
theorem cacheGet_of_find_live {α : Type} {c : SimpleTTLCache α} {now : ℚ}
    {key : String} {e : String × ℚ × α}
    (h : c.store.find? (fun x => decide (x.1 = key)) = some e)
    (hexp : ¬ e.2.1 < now) :
    cacheGet c now key = (some e.2.2, c) := by
  unfold cacheGet
  rw [h]
  dsimp only
  rw [if_neg hexp]

/-- Helper: an erased key is no longer found. -/
theorem find_storeErase_none {α : Type} (s : List (String × ℚ × α))
    (key : String) :
    (storeErase s key).find? (fun x => decide (x.1 = key)) = none := by
  apply List.find?_eq_none.mpr
  intro a ha
  have hmem := List.mem_filter.mp ha
  simpa using hmem.2

/-- Helper: a cache read never adds entries to the store. -/
theorem cacheGet_store_sub {α : Type} (c : SimpleTTLCache α) (now : ℚ)
    (key : String) : ∀ e, e ∈ (cacheGet c now key).2.store → e ∈ c.store := by
  cases hfind : c.store.find? (fun x => decide (x.1 = key)) with
  | none =>
      rw [cacheGet_of_find_none hfind]
      intro e he
      exact he
  | some x =>
      by_cases hexp : x.2.1 < now
      · rw [cacheGet_of_find_expired hfind hexp]
        intro e he
        exact List.mem_of_mem_filter he
      · rw [cacheGet_of_find_live hfind hexp]
        intro e he
        exact he

/-- Helper: after a missed read, a second read at the same time also
misses. -/
theorem cacheGet_miss_again {α : Type} (c : SimpleTTLCache α) (now : ℚ)
    (key : String) (h : (cacheGet c now key).1 = none) :
    (cacheGet (cacheGet c now key).2 now key).1 = none := by
  cases hfind : c.store.find? (fun x => decide (x.1 = key)) with
  | none =>
      rw [cacheGet_of_find_none hfind]
      rw [show ((none : Option α), c).2 = c from rfl]
      rw [cacheGet_of_find_none hfind]
  | some x =>
      by_cases hexp : x.2.1 < now
      · rw [cacheGet_of_find_expired hfind hexp]
        have := find_storeErase_none c.store key
        rw [cacheGet_of_find_none (c := ⟨c.ttl, storeErase c.store key⟩) this]
      · rw [cacheGet_of_find_live hfind hexp] at h
        simp at h

/-- Claim C9: a TTL-cache read occurring strictly after an entry's expiry
time returns an absent result and removes the entry from the store (lazy
eviction), and no read ever returns a value from an entry past its
expiry. -/
theorem ttl_cache_lazy_expiry :
    ∀ {α : Type} (c : SimpleTTLCache α) (now : ℚ) (key : String),
      (∀ e, c.store.find? (fun x => decide (x.1 = key)) = some e →
        e.2.1 < now →
        cacheGet c now key = (none, ⟨c.ttl, storeErase c.store key⟩)) ∧
      (∀ v, (cacheGet c now key).1 = some v →
        ∃ e, c.store.find? (fun x => decide (x.1 = key)) = some e ∧
          now ≤ e.2.1 ∧ e.2.2 = v) := by
  intro α c now key
  constructor
  · intro e hfind hexp
    exact cacheGet_of_find_expired hfind hexp
  · intro v hv
    cases hfind : c.store.find? (fun x => decide (x.1 = key)) with
    | none => rw [cacheGet_of_find_none hfind] at hv; simp at hv
    | some e =>
        by_cases hexp : e.2.1 < now
        · rw [cacheGet_of_find_expired hfind hexp] at hv; simp at hv
        · rw [cacheGet_of_find_live hfind hexp] at hv
          simp only [Option.some.injEq] at hv
          exact ⟨e, rfl, le_of_not_lt hexp, hv⟩

/-- Witness for C9: a read at time 11 of an entry that expired at time 10
misses and evicts it. -/
theorem ttl_cache_lazy_expiry_w :
    cacheGet c9 11 "k" = (none, ⟨600, []⟩) :=
  (ttl_cache_lazy_expiry c9 11 "k").1 ("k", 10, 42) rfl (by decide)

/-- Claim C10: when the cached read misses and the remote response status is
not 200, get_bytes yields an absent result, inserts nothing into the byte
cache, and leaves no live entry for the URL, so the next request re-fetches
rather than serving a cached failure. -/
theorem get_bytes_non200_spec :
    ∀ (resp : String → FetchResp) (st : SimpleTTLCache Bytes) (now : ℚ)
      (url : String),
      (cacheGet st now url).1 = none →
      ¬ (resp url).status = 200 →
      (get_bytes resp st now url).1 = none ∧
      (∀ e, e ∈ (get_bytes resp st now url).2.store → e ∈ st.store) ∧
      (cacheGet (get_bytes resp st now url).2 now url).1 = none := by
  intro resp st now url hmiss hstat
  by_cases hurl : url = ""
  · subst hurl
    unfold get_bytes
    rw [if_pos rfl]
    exact ⟨rfl, fun e he => he, hmiss⟩
  · have hgb : get_bytes resp st now url = (none, (cacheGet st now url).2) := by
      unfold get_bytes
      rw [if_neg hurl]
      rcases hg : cacheGet st now url with ⟨o, st1⟩
      have ho : o = none := by rw [hg] at hmiss; exact hmiss
      subst ho
      simp [if_pos hstat]
    refine ⟨by rw [hgb], ?_, ?_⟩
    · rw [hgb]
      exact cacheGet_store_sub st now url
    · rw [hgb]
      exact cacheGet_miss_again st now url hmiss

/-- Witness for C10: a 404 on a fresh cache yields no bytes. -/
theorem get_bytes_non200_spec_w :
    (get_bytes respFail7 ⟨600, []⟩ 0 "https://img.example/s.png").1 = none :=
  (get_bytes_non200_spec respFail7 ⟨600, []⟩ 0 "https://img.example/s.png" rfl
    (by decide)).1

/-- Claim C4 (documents the code bug): `get_bytes` enforces no byte limit at
all — on a cache miss with a 200 status it returns the complete payload
whatever its size — and the route's remote-URL branch, whose source calls
`get_bytes(url, max_bytes=...)` although `get_bytes` accepts no such
parameter, always ends in the generic 400 processing error (the call raises
TypeError) without performing any fetch. -/
theorem get_bytes_no_size_limit :
    (∀ (resp : String → FetchResp) (st : SimpleTTLCache Bytes) (now : ℚ)
       (url : String),
      ¬ url = "" →
      (cacheGet st now url).1 = none →
      (resp url).status = 200 →
      (get_bytes resp st now url).1 = some (resp url).content) ∧
    (∀ (env : Env) (inp : IdentifyInput) (u : String),
      inp.file = none →
      resolveUrl inp = some u →
      ¬ u = "" →
      (strStarts (sanitizeUrl u) "https://" ||
        (!env.requireHttps && strStarts (sanitizeUrl u) "http://")) = true →
      identify env inp = (Except.error HErr.processFailed, 0)) := by
  constructor
  · intro resp st now url hurl hmiss hstat
    rcases hg : cacheGet st now url with ⟨o, st1⟩
    have ho : o = none := by rw [hg] at hmiss; exact hmiss
    subst ho
    unfold get_bytes
    rw [if_neg hurl, hg]
    dsimp only
    rw [if_neg (not_not_intro hstat)]
  · intro env inp u hf hres hu hscheme
    have hfalsy : strFalsy (resolveUrl inp) = false := by
      rw [hres]
      unfold strFalsy
      simpa using hu
    unfold identify
    rw [hf, hres] at *
    simp only [hf, hres, hfalsy, Option.isNone_none, Option.isSome_none,
      Bool.and_false, Bool.false_and, Bool.and_true, Bool.not_false]
    rw [if_pos trivial, if_pos hscheme]
    simp

/-- Witness for C4: a 3-byte payload is returned whole on a 200 answer, and
a well-formed https URL request ends in the 400 processing error with zero
fetches. -/
theorem get_bytes_no_size_limit_w :
    (get_bytes respOK7 ⟨600, []⟩ 0 "https://img.example/big.png").1
      = some [1, 2, 3] ∧
    identify envFail inpUrl = (Except.error HErr.processFailed, 0) :=
  ⟨get_bytes_no_size_limit.1 respOK7 ⟨600, []⟩ 0 "https://img.example/big.png"
      (by decide) rfl rfl,
   get_bytes_no_size_limit.2 envFail inpUrl "https://img.example/a.png" rfl rfl
      (by decide) (by decide)⟩

/-- Counterexample to claim C7: a fingerprint cached by
`sprite_hash_from_url` at time 0 is still served at time 1000000, far past
the 600-second TTL used by the byte cache: the fingerprint cache has no
time-based expiry. -/
theorem fingerprint_cache_never_expires_cex :
    st7.bytesCache.ttl = 600 ∧
    (sprite_hash_from_url respFail7 ch7
        (sprite_hash_from_url respOK7 ch7 st7 0
          "https://img.example/s.png" "phash" 8).2
        1000000 "https://img.example/s.png" "phash" 8).1 = some hW :=
  ⟨rfl, rfl⟩

/-- Claim C7 amended: fingerprints are cached under the composite key
(algorithm, size, url), but in a plain mapping with no time-based expiry: a
cached fingerprint is returned unchanged by a read at any later time, unlike
an expired raw-bytes cache entry. -/
theorem fingerprint_cache_plain_dict :
    ∀ (resp : String → FetchResp) (ch : Bytes → String → Nat → Option Hash)
      (st : ClientState) (now : ℚ) (url method : String) (hs : Nat)
      (e : String × Hash),
      ¬ url = "" →
      st.spriteHashCache.find?
        (fun x => decide (x.1 = spriteHashKey method hs url)) = some e →
      sprite_hash_from_url resp ch st now url method hs = (some e.2, st) := by
  intro resp ch st now url method hs e hurl hfind
  unfold sprite_hash_from_url
  rw [if_neg hurl, hfind]

/-- Witness for C7's amended claim at a concrete state and read time. -/
theorem fingerprint_cache_plain_dict_w :
    sprite_hash_from_url respFail7 ch7
        ⟨⟨600, []⟩, [(spriteHashKey "phash" 8 "https://img.example/s.png", hW)]⟩
        999999 "https://img.example/s.png" "phash" 8
      = (some hW,
          ⟨⟨600, []⟩,
            [(spriteHashKey "phash" 8 "https://img.example/s.png", hW)]⟩) :=
  fingerprint_cache_plain_dict respFail7 ch7
    ⟨⟨600, []⟩, [(spriteHashKey "phash" 8 "https://img.example/s.png", hW)]⟩
    999999 "https://img.example/s.png" "phash" 8
    (spriteHashKey "phash" 8 "https://img.example/s.png", hW)
    (by decide) rfl

/-- Counterexample to claim C1: a candidate whose primary source fetch
yields no fingerprint is present in the coarse ranked list with similarity
0.0, not absent from it. -/
theorem coarse_failed_candidate_present_cex :
    envFail.hashAt (sprite_default_url_for_id 1) envFail.method envFail.hashSize
        = none ∧
    coarseTopk envFail qhW = [("bulbasaur", 0)] :=
  ⟨rfl, rfl⟩

/-- Claim C1 amended: a usable candidate (truthy name and id) whose primary
source fetch or hash yields no fingerprint is retained in the coarse ranking
with similarity 0.0 (it can drop out only through the top-50 truncation);
only entries with a falsy name or id are excluded. -/
theorem coarse_failed_candidate_scored_zero :
    ∀ (env : Env) (qh : Hash) (e : Entry),
      e ∈ env.entries → ¬ e.name = "" → ¬ e.id = 0 →
      env.hashAt (sprite_default_url_for_id e.id) env.method env.hashSize
        = none →
      (e.name, (0:ℚ)) ∈ coarseRanked env qh := by
  intro env qh e he hn hid hnone
  have hev : evalEntry env qh e = (e.name, 0) := by
    unfold evalEntry
    rw [if_neg (by tauto), hnone]
  have h1 : (e.name, (0:ℚ)) ∈ coarseResults env qh := by
    unfold coarseResults
    rw [← hev]
    exact List.mem_map_of_mem _ he
  have h2 : (e.name, (0:ℚ)) ∈ coarseFiltered env qh := by
    unfold coarseFiltered
    rw [List.mem_filter]
    exact ⟨h1, by simpa using hn⟩
  exact (sortDesc_perm _).mem_iff.mpr h2

/-- Witness for C1's amended claim on the all-sources-failing environment. -/
theorem coarse_failed_candidate_scored_zero_w :
    ("bulbasaur", (0:ℚ)) ∈ coarseRanked envFail qhW :=
  coarse_failed_candidate_scored_zero envFail qhW entryB (by decide)
    (by decide) (by decide) rfl

/-- Claim C3: when the coarse pass retained any candidate, refinement is
entered iff the best coarse similarity is strictly below the threshold; and
whenever refinement is entered, the final reported similarity is at least
the best coarse similarity (the refined head replaces it only when strictly
greater). -/
theorem refine_trigger_monotone :
    ∀ (env : Env) (qh : Hash),
      (¬ coarseTopk env qh = [] →
        (refineEntered env qh = true ↔
          coarseBestSim env qh < env.threshold)) ∧
      (refineEntered env qh = true →
        coarseBestSim env qh ≤ (finalBest env qh).2) := by
  intro env qh
  constructor
  · intro hne
    unfold refineEntered
    simp only [Bool.and_eq_true, decide_eq_true_eq]
    exact ⟨fun h => h.1, fun h => ⟨h, hne⟩⟩
  · intro hre
    unfold finalBest
    rw [if_pos hre]
    rcases hs : sortDesc (refinedList env qh) with _ | ⟨r, rs⟩
    · exact le_refl _
    · dsimp only
      by_cases hlt : coarseBestSim env qh < r.2
      · rw [if_pos hlt]
        exact le_of_lt hlt
      · rw [if_neg hlt]

/-- Witness for C3 on the all-sources-failing environment, in which the
coarse list is non-empty and refinement is entered. -/
theorem refine_trigger_monotone_w :
    (refineEntered envFail qhW = true ↔
      coarseBestSim envFail qhW < envFail.threshold) ∧
    coarseBestSim envFail qhW ≤ (finalBest envFail qhW).2 :=
  ⟨(refine_trigger_monotone envFail qhW).1 (by decide),
   (refine_trigger_monotone envFail qhW).2 (by decide)⟩

/-- Counterexample to claim C8: a request supplying both a file upload and
a url (passed as a query parameter) is not rejected with a 400: the url is
ignored and the file is processed to a successful identification. -/
theorem both_modes_not_rejected_cex :
    inpBothQuery.file.isSome = true ∧
    inpBothQuery.queryUrl = some "https://img.example/a.png" ∧
    (identify envFail inpBothQuery).1
      = Except.ok ("bulbasaur", 0, "Potential Inaccurate") :=
  ⟨rfl, rfl, rfl⟩

/-- Claim C8 amended: supplying a file together with a truthy body/form url
yields the 400 conflict error before any fetch (fetch count 0); supplying
neither a file nor any url (body, JSON or query) yields the 400
missing-input error, also with no fetch; but a url supplied only through
the query string or the JSON body alongside a file is ignored and the file
is processed. -/
theorem input_mode_validation :
    ∀ (env : Env) (inp : IdentifyInput),
      (inp.file.isSome = true → strFalsy inp.bodyUrl = false →
        identify env inp = (Except.error HErr.bothProvided, 0)) ∧
      (inp.file.isNone = true → strFalsy (resolveUrl inp) = true →
        identify env inp = (Except.error HErr.provideEither, 0)) := by
  intro env inp
  constructor
  · intro hsome hurl
    have hno : inp.file.isNone = false := by
      cases hfo : inp.file
      · rw [hfo] at hsome; simp at hsome
      · rfl
    have hres : resolveUrl inp = inp.bodyUrl := by
      unfold resolveUrl
      rw [hno]
      simp
    unfold identify
    rw [hres, hno, hsome, hurl]
    simp
  · intro hnone hfalsy
    unfold identify
    rw [hnone, hfalsy]
    simp

/-- Witness for C8's amended claim: concrete conflicting and empty
requests. -/
theorem input_mode_validation_w :
    identify envFail inpBothBody = (Except.error HErr.bothProvided, 0) ∧
    identify envFail inpNone = (Except.error HErr.provideEither, 0) :=
  ⟨(input_mode_validation envFail inpBothBody).1 rfl rfl,
   (input_mode_validation envFail inpNone).2 rfl rfl⟩

/-- Helper: the name recorded by the coarse scoring of one entry. -/
theorem evalEntry_fst (env : Env) (qh : Hash) (e : Entry) :
    (evalEntry env qh e).1 = if e.name = "" ∨ e.id = 0 then "" else e.name := by
  unfold evalEntry
  by_cases h : e.name = "" ∨ e.id = 0
  · simp only [if_pos h]
  · simp only [if_neg h]
    cases env.hashAt (sprite_default_url_for_id e.id) env.method env.hashSize
      <;> rfl

/-- Helper: the stable sort is empty iff its input is. -/
theorem sortDesc_eq_nil_iff (l : List (String × ℚ)) :
    sortDesc l = [] ↔ l = [] := by
  constructor
  · intro h
    have hp := sortDesc_perm l
    rw [h] at hp
    exact (hp.symm).eq_nil
  · intro h
    subst h
    rfl

/-- Helper: the retained top-50 list is empty iff no coarse result survived
the name filter. -/
theorem coarseTopk_eq_nil_iff (env : Env) (qh : Hash) :
    coarseTopk env qh = [] ↔ coarseFiltered env qh = [] := by
  unfold coarseTopk coarseRanked
  constructor
  · intro h
    rcases List.take_eq_nil_iff.mp h with h0 | h0
    · exact absurd h0 (by decide)
    · exact (sortDesc_eq_nil_iff _).mp h0
  · intro h
    rw [h]
    rfl

/-- Helper: the filtered coarse list is empty iff every catalog entry has a
falsy name or id. -/
theorem coarseFiltered_eq_nil_iff (env : Env) (qh : Hash) :
    coarseFiltered env qh = [] ↔
      ∀ e ∈ env.entries, e.name = "" ∨ e.id = 0 := by
  unfold coarseFiltered coarseResults
  rw [List.filter_eq_nil_iff]
  constructor
  · intro h e he
    by_contra hc
    have hh := h (evalEntry env qh e) (List.mem_map_of_mem _ he)
    apply hh
    rw [evalEntry_fst, if_neg hc]
    have hn : ¬ e.name = "" := fun hn => hc (Or.inl hn)
    simpa using hn
  · intro h p hp
    rcases List.mem_map.mp hp with ⟨e, he, rfl⟩
    simp [evalEntry_fst, h e he]

/-- Helper: the post-hash search yields the 404 outcome iff the retained
coarse list is empty. -/
theorem identifyAfterHash_notFound_iff (env : Env) (qh : Hash) :
    (identifyAfterHash env qh).1 = Except.error HErr.notFound ↔
      coarseTopk env qh = [] := by
  constructor
  · intro h
    by_contra hne
    rcases htop : coarseTopk env qh with _ | ⟨p, l⟩
    · exact hne htop
    · have hbn : coarseBestName env qh = some p.1 := by
        unfold coarseBestName
        rw [htop]
      have hex : ∃ nm s, finalBest env qh = (some nm, s) := by
        unfold finalBest
        by_cases hre : refineEntered env qh = true
        · rw [if_pos hre]
          rcases hs : sortDesc (refinedList env qh) with _ | ⟨r, rs⟩
          · exact ⟨p.1, coarseBestSim env qh, by rw [hbn]⟩
          · by_cases hlt : coarseBestSim env qh < r.2
            · exact ⟨r.1, r.2, by dsimp only; rw [if_pos hlt]⟩
            · exact ⟨p.1, coarseBestSim env qh,
                by dsimp only; rw [if_neg hlt, hbn]⟩
        · rw [if_neg hre]
          exact ⟨p.1, coarseBestSim env qh, by rw [hbn]⟩
      rcases hex with ⟨nm, s, hfb⟩
      unfold identifyAfterHash at h
      rw [hfb] at h
      simp at h
  · intro h
    have hbn : coarseBestName env qh = none := by
      unfold coarseBestName
      rw [h]
    have hre : refineEntered env qh = false := by
      unfold refineEntered
      rw [h]
      simp
    unfold identifyAfterHash finalBest
    rw [hre]
    simp [hbn]

/-- Counterexample to claim C2: with a non-empty catalog whose every source
fetch fails, the request does not fail with the 404 NoMatch outcome: it
returns the first candidate with similarity 0.0. -/
theorem identify_allfail_not_404_cex :
    envFail.hashAt = (fun _ _ _ => none) ∧
    ¬ envFail.entries = [] ∧
    (identify envFail inpFile).1
      = Except.ok ("bulbasaur", 0, "Potential Inaccurate") :=
  ⟨rfl, by decide, rfl⟩

/-- Claim C2 amended: for a valid file-mode request whose image hashes
successfully, identification fails with the 404 NoMatch outcome iff no
catalog entry has a usable (truthy) name and id — in particular when the
catalog is empty; when usable entries exist, a candidate is returned even
if every candidate source fails. -/
theorem identify_notFound_iff :
    ∀ (env : Env) (inp : IdentifyInput) (f : UploadedFile),
      inp.file = some f →
      strFalsy inp.bodyUrl = true →
      strStarts f.contentType "image/" = true →
      f.content.length ≤ env.maxUpload →
      ¬ f.content = [] →
      ∀ qh : Hash,
        env.computeHash f.content env.method env.hashSize = some qh →
        ((identify env inp).1 = Except.error HErr.notFound ↔
          ∀ e ∈ env.entries, e.name = "" ∨ e.id = 0) := by
  intro env inp f hf hb hct hlen hne qh hhash
  have hres : resolveUrl inp = inp.bodyUrl := by
    unfold resolveUrl
    rw [hf]
    simp
  have htake : f.content.take (env.maxUpload + 1) = f.content :=
    List.take_of_length_le (by omega)
  have hred : identify env inp = identifyAfterHash env qh := by
    unfold identify
    rw [hres, hf]
    simp only [hb, Option.isNone_some, Option.isSome_some,
      Bool.false_and, Bool.true_and, Bool.not_true]
    rw [if_neg (by simp), if_neg (by simp), if_neg (by simp)]
    rw [hct, htake, hhash]
    rw [if_neg (by simp), if_neg (Nat.not_lt.mpr hlen)]
    rw [if_neg (by simpa using hne)]
  rw [hred, identifyAfterHash_notFound_iff, coarseTopk_eq_nil_iff,
    coarseFiltered_eq_nil_iff]

/-- Witness for C2's amended claim: an empty catalog yields the 404
outcome. -/
theorem identify_notFound_iff_w :
    (identify envEmpty inpFile).1 = Except.error HErr.notFound :=
  (identify_notFound_iff envEmpty inpFile fW rfl rfl (by decide) (by decide)
      (by decide) qhW rfl).mpr
    (fun e he => absurd he (List.not_mem_nil e))

end PokeChat
